import Mathlib

/-!
Verification development for the embedded template engine of the `jkpt`
repository (`monitor/extra_apps/django/template/`): a shallow embedding of
the lexer (`base.py`: `Lexer`, `DebugLexer`), the expression resolver
(`Variable`, `FilterExpression`), the parser (`Parser`), the node model
(`Node`, `NodeList`, `TextNode`, `VariableNode`) and the layered variable
contexts (`context.py`: `BaseContext`, `Context`, `RenderContext`), together
with theorems settling the frozen specification claims.

Strings are modelled as `List Char` (written `Str` below) so that the
character-level scanning of the lexer and the parsing of numeric literals
can be reasoned about structurally.  Python `dict`s used as context frames
are modelled as association lists (first match wins; frames built by the
engine have unique keys).  Python exceptions are modelled by the `Err`
error type threaded through `Except`.
-/

set_option autoImplicit false

namespace DjangoTemplate

/-- Character list standing for a Python `str`. -/
abbrev Str := List Char

/-- Convert a Lean string literal to the `Str` model. -/
def chars (s : String) : Str := s.data

/-- Python exceptions observed by the embedded code: `ContextPopException`,
`KeyError`, `IndexError`, `TypeError`, `ValueError`, `AttributeError`,
`VariableDoesNotExist` (carrying the failing segment) and
`TemplateSyntaxError` (carrying the message).  `fuelOut` is an artifact of
the bounded recursion used for `Parser.parse` and never occurs with
sufficient fuel. -/
inductive Err where
  | contextPop
  | keyError
  | indexError
  | typeError
  | valueError
  | attributeError
  | varDNE (bit : Str)
  | tse (msg : Str)
  | fuelOut
deriving DecidableEq

/-- Template values: the subset of Python values the claims need.  Floats
are carried by their source text (no claim depends on float arithmetic);
`vCallable` models a Python callable by its `do_not_call_in_templates` and
`alters_data` flags together with the outcome of a zero-argument call
(`none` models a callable whose zero-argument call raises `TypeError`
because arguments are required). -/
inductive Val where
  | vNone
  | vBool (b : Bool)
  | vInt (n : Int)
  | vFl (raw : Str)
  | vStr (s : Str)
  | vDict (entries : List (Str × Val))
  | vList (elems : List Val)
  | vCallable (doNotCall : Bool) (altersData : Bool) (result : Option Val)

/-- One mapping layer of a context stack: a Python `dict` as an association
list from key to value. -/
abbrev Frame := List (Str × Val)

/-- Python `dict` lookup on a frame (association list; first match wins). -/
def frameLookup : Frame → Str → Option Val
  | [], _ => Option.none
  | (k', v) :: rest, k => if k' = k then some v else frameLookup rest k

/-- Python `key in d` on a frame. -/
def frameHasKey (f : Frame) (k : Str) : Bool := (frameLookup f k).isSome

/-- Keys of a frame in insertion order, as yielded by iterating the dict. -/
def frameKeys (f : Frame) : List Str := f.map (fun p => p.1)

namespace BaseContext

/-- The fixed builtins frame installed by `BaseContext._reset_dicts`:
`{'True': True, 'False': False, 'None': None}`. -/
def builtins : Frame :=
  [(chars "True", Val.vBool true), (chars "False", Val.vBool false),
   (chars "None", Val.vNone)]

/-- The `dicts` list of a freshly constructed `BaseContext` (or `Context`)
with no user frames: just the builtins frame. -/
def init : List Frame := [builtins]

/-- `BaseContext.push` with a single mapping argument: `ContextDict`
appends a copy of the mapping as the new top frame. -/
def push (dicts : List Frame) (d : Frame) : List Frame := dicts ++ [d]

/-- `BaseContext.pop`: raises `ContextPopException` when only the builtins
frame remains (`len(self.dicts) == 1`), otherwise removes and returns the
top (last) frame. -/
def pop (dicts : List Frame) : Except Err (Frame × List Frame) :=
  if dicts.length = 1 then .error Err.contextPop
  else
    match dicts.getLast? with
    | some f => .ok (f, dicts.dropLast)
    | Option.none => .error Err.indexError

/-- Search of `reversed(self.dicts)`: the first frame containing the key,
scanning from the most recently pushed frame to the oldest, as used by
`BaseContext.__getitem__` and `BaseContext.get`. -/
def stackLookup : List Frame → Str → Option Val
  | [], _ => Option.none
  | d :: rest, k =>
    match stackLookup rest k with
    | some v => some v
    | Option.none => frameLookup d k

/-- `BaseContext.get(key, otherwise=None)`: newest-to-oldest search, with
the default returned when no frame contains the key. -/
def get (dicts : List Frame) (k : Str) (otherwise : Val) : Val :=
  (stackLookup dicts k).getD otherwise

/-- `BaseContext.__getitem__`: newest-to-oldest search, raising `KeyError`
when no frame contains the key. -/
def getItem (dicts : List Frame) (k : Str) : Except Err Val :=
  match stackLookup dicts k with
  | some v => .ok v
  | Option.none => .error Err.keyError

/-- `BaseContext.__contains__`: true when any frame contains the key. -/
def contains (dicts : List Frame) (k : Str) : Bool :=
  dicts.any (fun d => frameHasKey d k)

end BaseContext

namespace RenderContext

/-- `RenderContext.get`: consults only the top frame (`self.dicts[-1]`);
`IndexError` on an empty stack (never the case for a real instance). -/
def get (dicts : List Frame) (k : Str) (otherwise : Val) : Except Err Val :=
  match dicts.getLast? with
  | some d => .ok ((frameLookup d k).getD otherwise)
  | Option.none => .error Err.indexError

/-- `RenderContext.__getitem__`: `self.dicts[-1][key]`. -/
def getItem (dicts : List Frame) (k : Str) : Except Err Val :=
  match dicts.getLast? with
  | some d =>
    match frameLookup d k with
    | some v => .ok v
    | Option.none => .error Err.keyError
  | Option.none => .error Err.indexError

/-- `RenderContext.__contains__`: `key in self.dicts[-1]`. -/
def contains (dicts : List Frame) (k : Str) : Except Err Bool :=
  match dicts.getLast? with
  | some d => .ok (frameHasKey d k)
  | Option.none => .error Err.indexError

/-- `RenderContext.__iter__`: `yield from self.dicts[-1]`, i.e. the keys of
the top frame only. -/
def iterKeys (dicts : List Frame) : Except Err (List Str) :=
  match dicts.getLast? with
  | some d => .ok (frameKeys d)
  | Option.none => .error Err.indexError

/-- State of a `RenderContext` instance: its frame stack and its `template`
attribute (modelled by an opaque numeric identity, `None` initially). -/
structure State where
  dicts : List Frame
  template : Option Nat

/-- `RenderContext.push_state(template, isolated_context)`: records the
current `template`, sets the new one, pushes one fresh empty frame when
`isolated_context` is true, runs the enclosed body (a state transformer
which may itself raise), and in the `finally` block restores the previous
`template` and pops when `isolated_context` is true.  An exception raised
by the `finally` pop replaces the body's outcome, as in Python. -/
def pushState (t : Nat) (isolatedContext : Bool)
    (body : State → Except Err Unit × State) (rc : State) :
    Except Err Unit × State :=
  let initial := rc.template
  let rc1 : State := { rc with template := some t }
  let rc2 : State := if isolatedContext then { rc1 with dicts := rc1.dicts ++ [[]] } else rc1
  let res := body rc2
  let rc4 : State := { res.2 with template := initial }
  if isolatedContext then
    match BaseContext.pop rc4.dicts with
    | .ok (_, ds) => (res.1, { rc4 with dicts := ds })
    | .error e => (.error e, rc4)
  else (res.1, rc4)

end RenderContext

section ContextClaims

/-- Claim C1 scenario, first user frame: `{"x": 1}`. -/
def frameX1 : Frame := [(chars "x", Val.vInt 1)]

/-- Claim C1 scenario, second user frame: `{"x": 2}`. -/
def frameX2 : Frame := [(chars "x", Val.vInt 2)]

/-- The C1 context after `push({"x":1})` then `push({"x":2})`. -/
def c1Dicts : List Frame :=
  BaseContext.push (BaseContext.push BaseContext.init frameX1) frameX2

/-- C1 (counterexample): the claim asserts that the second `pop()` raises
the context-pop error, but on the code the second `pop()` succeeds — after
two pushes and one pop two frames remain (builtins plus `{"x":1}`), so
`len(self.dicts) == 1` is false and the pop returns the `{"x":1}` frame,
leaving only the builtins frame. -/
theorem c1_pop_counterexample :
    ((BaseContext.pop c1Dicts).bind fun p => BaseContext.pop p.2) =
      .ok (frameX1, [BaseContext.builtins]) := by
  rfl

/-- C1 (amended): on a fresh context, after `push({"x":1})` then
`push({"x":2})`, `get("x")` returns `2`; after one `pop()` (which returns
the `{"x":2}` frame), `get("x")` returns `1`; a second `pop()` succeeds,
returning the `{"x":1}` frame and leaving only the builtins frame; and a
third `pop()` — called when only the builtins frame remains — raises the
context-pop error. -/
theorem c1_push_pop_get :
    BaseContext.get c1Dicts (chars "x") Val.vNone = Val.vInt 2
    ∧ BaseContext.pop c1Dicts = .ok (frameX2, BaseContext.push BaseContext.init frameX1)
    ∧ BaseContext.get (BaseContext.push BaseContext.init frameX1) (chars "x") Val.vNone
        = Val.vInt 1
    ∧ BaseContext.pop (BaseContext.push BaseContext.init frameX1)
        = .ok (frameX1, BaseContext.init)
    ∧ BaseContext.pop BaseContext.init = .error Err.contextPop := by
  refine ⟨rfl, rfl, rfl, rfl, rfl⟩

/-- Helper for C10: `getLast?` of a stack that ends with a known top. -/
theorem getLast?_append_single {α : Type} (l : List α) (a : α) :
    (l ++ [a]).getLast? = some a := by
  induction l with
  | nil => rfl
  | cons x xs ih =>
    rw [List.cons_append, List.getLast?_cons, ih]
    rfl

/-- Helper for C10: newest-to-oldest search of an appended stack looks at
the suffix first. -/
theorem stackLookup_append (l1 l2 : List Frame) (k : Str) :
    BaseContext.stackLookup (l1 ++ l2) k =
      match BaseContext.stackLookup l2 k with
      | some v => some v
      | Option.none => BaseContext.stackLookup l1 k := by
  induction l1 with
  | nil =>
    cases hl2 : BaseContext.stackLookup l2 k <;> simp [BaseContext.stackLookup, hl2]
  | cons d rest ih =>
    have hstep : BaseContext.stackLookup (d :: rest ++ l2) k =
        (match BaseContext.stackLookup (rest ++ l2) k with
         | some v => some v
         | Option.none => frameLookup d k) := rfl
    rw [hstep, ih]
    cases hl2 : BaseContext.stackLookup l2 k <;>
      cases hr : BaseContext.stackLookup rest k <;>
        simp [BaseContext.stackLookup, hl2, hr]

/-- Membership of a key in a list of yielded keys. -/
def keysContain (ks : List Str) (k : Str) : Bool := ks.any (fun x => x = k)

/-- Helper for C10: a key absent from a frame is not among its keys. -/
theorem frameLookup_none_not_key (f : Frame) (k : Str)
    (h : frameLookup f k = Option.none) : keysContain (frameKeys f) k = false := by
  induction f with
  | nil => rfl
  | cons p rest ih =>
    rw [frameLookup] at h
    by_cases hk : p.1 = k
    · rw [if_pos hk] at h
      exact Option.noConfusion h
    · rw [if_neg hk] at h
      have hrest := ih h
      show (decide (p.1 = k) || keysContain (frameKeys rest) k) = false
      rw [decide_eq_false hk, hrest]
      rfl

/-- C10: `RenderContext` key lookup (`get`, `__getitem__`, `__contains__`
and iteration) consults only the most recently pushed frame — a key stored
only in an older render-context frame is reported absent and `get` returns
the default — while `BaseContext.get` on the same stack searches every
frame from newest to oldest and finds the stored value. -/
theorem c10_render_context_top_frame_only
    (older : List Frame) (top : Frame) (k : Str) (v d : Val)
    (htop : frameLookup top k = Option.none)
    (holder : BaseContext.stackLookup older k = some v) :
    RenderContext.get (older ++ [top]) k d = .ok d
    ∧ RenderContext.getItem (older ++ [top]) k = .error Err.keyError
    ∧ RenderContext.contains (older ++ [top]) k = .ok false
    ∧ RenderContext.iterKeys (older ++ [top]) = .ok (frameKeys top)
    ∧ keysContain (frameKeys top) k = false
    ∧ BaseContext.get (older ++ [top]) k d = v := by
  have hl := getLast?_append_single older top
  refine ⟨?_, ?_, ?_, ?_, ?_, ?_⟩
  · simp [RenderContext.get, hl, htop]
  · simp [RenderContext.getItem, hl, htop]
  · simp [RenderContext.contains, hl, frameHasKey, htop]
  · simp [RenderContext.iterKeys, hl]
  · exact frameLookup_none_not_key top k htop
  · rw [BaseContext.get, stackLookup_append]
    simp [BaseContext.stackLookup, htop, holder]

/-- C10 witness data: an older frame binding `k`. -/
def c10Older : List Frame := [[(chars "k", Val.vInt 5)]]

/-- C10 witness: with `k` bound only in an older render-context frame and
an empty top frame, the render-context operations report the key absent
while the base-context search finds it. -/
theorem c10_witness :
    RenderContext.get (c10Older ++ [[]]) (chars "k") Val.vNone = .ok Val.vNone
    ∧ RenderContext.getItem (c10Older ++ [[]]) (chars "k") = .error Err.keyError
    ∧ RenderContext.contains (c10Older ++ [[]]) (chars "k") = .ok false
    ∧ RenderContext.iterKeys (c10Older ++ [[]]) = .ok (frameKeys [])
    ∧ keysContain (frameKeys ([] : Frame)) (chars "k") = false
    ∧ BaseContext.get (c10Older ++ [[]]) (chars "k") Val.vNone = Val.vInt 5 :=
  c10_render_context_top_frame_only c10Older [] (chars "k") (Val.vInt 5) Val.vNone
    rfl rfl

/-- Helper: a nonempty list has a last element. -/
theorem exists_getLast {α : Type} : ∀ (l : List α), l ≠ [] → ∃ a, l.getLast? = some a
  | [a], _ => ⟨a, rfl⟩
  | _ :: b :: t, _ => by
    obtain ⟨x, hx⟩ := exists_getLast (b :: t) (by simp)
    exact ⟨x, by rw [List.getLast?_cons_cons, hx]⟩

/-- C8: `push_state(template, isolated_context=True)` runs its body on the
state whose `template` is the given one and whose stack has exactly one
fresh empty frame appended; on exit — whether the body completed normally
or raised — the previous `template` attribute is restored and exactly the
pushed frame is popped, so the frame-stack depth equals the depth on
entry.  The hypotheses say that the instance has the builtins frame every
`RenderContext` is created with (a nonempty stack) and that the body is
balanced (it restores the depth it was entered at, as every node's
render-state usage does). -/
theorem c8_push_state_scoped
    (rc : RenderContext.State) (t : Nat)
    (body : RenderContext.State → Except Err Unit × RenderContext.State)
    (hne : rc.dicts ≠ [])
    (hbal : ((body { rc with template := some t, dicts := rc.dicts ++ [[]] }).2).dicts.length
              = rc.dicts.length + 1) :
    (RenderContext.pushState t true body rc).1
        = (body { rc with template := some t, dicts := rc.dicts ++ [[]] }).1
    ∧ (RenderContext.pushState t true body rc).2.template = rc.template
    ∧ (RenderContext.pushState t true body rc).2.dicts.length = rc.dicts.length := by
  have hlen : 0 < rc.dicts.length := List.length_pos.mpr hne
  have h1 : ((body { rc with template := some t, dicts := rc.dicts ++ [[]] }).2).dicts.length ≠ 1 := by
    omega
  have h2 : ((body { rc with template := some t, dicts := rc.dicts ++ [[]] }).2).dicts ≠ [] := by
    intro hcon
    rw [hcon] at hbal
    simp at hbal
  obtain ⟨f, hf⟩ := exists_getLast _ h2
  refine ⟨?_, ?_, ?_⟩
  · simp [RenderContext.pushState, BaseContext.pop, if_neg h1, hf]
  · simp [RenderContext.pushState, BaseContext.pop, if_neg h1, hf]
  · simp [RenderContext.pushState, BaseContext.pop, if_neg h1, hf, List.length_dropLast, hbal]

/-- C8 witness body: raises after writing nothing, preserving depth. -/
def c8Body (st : RenderContext.State) : Except Err Unit × RenderContext.State :=
  (.error Err.typeError, st)

/-- C8 witness render context: a fresh instance bound to template `3`. -/
def c8Rc : RenderContext.State := ⟨[BaseContext.builtins], some 3⟩

/-- C8 witness: a raising body still exits with the prior template
restored and the frame depth back to one. -/
theorem c8_witness :
    (RenderContext.pushState 7 true c8Body c8Rc).1
        = (c8Body { c8Rc with template := some 7, dicts := c8Rc.dicts ++ [[]] }).1
    ∧ (RenderContext.pushState 7 true c8Body c8Rc).2.template = c8Rc.template
    ∧ (RenderContext.pushState 7 true c8Body c8Rc).2.dicts.length = c8Rc.dicts.length :=
  c8_push_state_scoped c8Rc 7 c8Body (by simp [c8Rc]) rfl

end ContextClaims

/-- Python whitespace as stripped by `str.strip` and the numeric parsers. -/
def isPySpace (c : Char) : Bool :=
  c = ' ' || c = '\t' || c = '\n' || c = '\r' || c = '\x0b' || c = '\x0c'

/-- Occurrence of a two-character substring. -/
def hasPair (a b : Char) : Str → Bool
  | x :: y :: t => (x = a && y = b) || hasPair a b (y :: t)
  | _ => false

/-- Python `var.split(sep)` for a one-character separator: keeps empty
pieces, always returns at least one piece. -/
def splitOnChar (c : Char) : Str → List Str
  | [] => [[]]
  | a :: t =>
    let r := splitOnChar c t
    if a = c then [] :: r
    else
      match r with
      | h :: t2 => (a :: h) :: t2
      | [] => [[a]]

/-- Consume the continuation of a digit run: digits, with single
underscores allowed between two digits (Python numeric-literal grouping).
Returns the unconsumed remainder. -/
def digitsUAux : Str → Str
  | [] => []
  | c :: t =>
    if c.isDigit then digitsUAux t
    else if c = '_' then
      match t with
      | d :: _ => if d.isDigit then digitsUAux t else c :: t
      | [] => [c]
    else c :: t

/-- Consume a nonempty digit run (with underscore grouping); `none` when
the input does not start with a digit. -/
def digitsU : Str → Option Str
  | c :: t => if c.isDigit then some (digitsUAux t) else Option.none
  | [] => Option.none

/-- Drop leading Python whitespace. -/
def skipWs (s : Str) : Str := s.dropWhile isPySpace

/-- Drop one optional leading sign. -/
def dropSign (s : Str) : Str :=
  match s with
  | c :: t => if c = '+' || c = '-' then t else s
  | [] => s

/-- First character test. -/
def headIs (c : Char) (s : Str) : Bool :=
  match s with
  | x :: _ => x = c
  | [] => false

/-- Last character test (Python `var.endswith(c)`). -/
def lastIs (c : Char) (s : Str) : Bool := s.getLast? = some c

/-- Acceptance of a string by Python `int()` (ASCII model): optional
surrounding whitespace, optional sign, then a digit run with underscore
grouping. -/
def pyIntOk (s : Str) : Bool :=
  match digitsU (dropSign (skipWs s)) with
  | some rest => (skipWs rest).isEmpty
  | Option.none => false

/-- Decimal value of the digits in a run (underscores already removed). -/
def digitsVal (l : Str) : Nat :=
  l.foldl (fun a c => a * 10 + (c.toNat - 48)) 0

/-- Python `int(s)` on strings (ASCII model): the parsed integer, or
`none` when `int()` raises `ValueError`. -/
def pyIntParse (s : Str) : Option Int :=
  if pyIntOk s then
    let l1 := skipWs s
    let mag : Int := Int.ofNat (digitsVal ((dropSign l1).filter Char.isDigit))
    some (if headIs '-' l1 then -mag else mag)
  else Option.none

/-- Optional exponent part of a float literal: `e`/`E`, optional sign,
digit run.  Returns the remainder, or `none` when an exponent marker is
present but malformed. -/
def expTail (s : Str) : Option Str :=
  match s with
  | c :: t =>
    if c = 'e' || c = 'E' then
      match digitsU (dropSign t) with
      | some r => some r
      | Option.none => Option.none
    else some s
  | [] => some []

/-- Mantissa-and-exponent body of a Python float literal (after sign):
`digits [. [digits]] [exp]` or `. digits [exp]`. -/
def pyFloatBody (s : Str) : Option Str :=
  match digitsU s with
  | some r1 =>
    match r1 with
    | '.' :: t =>
      match digitsU t with
      | some r2 => expTail r2
      | Option.none => expTail t
    | _ => expTail r1
  | Option.none =>
    match s with
    | '.' :: t =>
      match digitsU t with
      | some r => expTail r
      | Option.none => Option.none
    | _ => Option.none

/-- Case-insensitive `inf`, `infinity` and `nan` forms accepted by
`float()` (after sign, with trailing whitespace allowed). -/
def ciInfNan (s : Str) : Bool :=
  let core := ((s.reverse.dropWhile isPySpace).reverse).map Char.toLower
  core = chars "inf" || core = chars "infinity" || core = chars "nan"

/-- Acceptance of a string by Python `float()` (ASCII model). -/
def pyFloatOk (s : Str) : Bool :=
  let l2 := dropSign (skipWs s)
  (match pyFloatBody l2 with
   | some r => (skipWs r).isEmpty
   | Option.none => false) || ciInfNan l2

/-- Python `float(s)` on strings: the accepted literal is carried by its
source text (float arithmetic is irrelevant to every claim); `none` when
`float()` raises `ValueError`. -/
def pyFloatParse (s : Str) : Option Str :=
  if pyFloatOk s then some s else Option.none

/-- The `Variable.__init__` branch test: `'.' in var or 'e' in
var.lower()`. -/
def hasDotOrE (s : Str) : Bool :=
  s.any (fun c => c = '.' || c = 'e' || c = 'E')

/-- A resolved literal held by a `Variable`: int, float (by source text)
or string (`mark_safe` marking is erased in this model; no claim concerns
safe-string tracking). -/
inductive Lit where
  | int (n : Int)
  | fl (raw : Str)
  | str (s : Str)
deriving DecidableEq

/-- Result of `Variable.__init__`: the raw expression string, the
`literal` and `lookups` fields, and the `translate` flag
(`message_context` is always `None` in `__init__` and is omitted). -/
structure Variable where
  var : Str
  literal : Option Lit
  lookups : Option (List Str)
  translate : Bool
deriving DecidableEq

/-- Left-to-right non-overlapping replacement of the two-character
sequence `a b` by `repl` (Python `str.replace` for two-character
needles). -/
def replacePair (a b : Char) (repl : Str) : Str → Str
  | x :: y :: t =>
    if x = a && y = b then repl ++ replacePair a b repl t
    else x :: replacePair a b repl (y :: t)
  | l => l

/-- Unescaping performed by the collaborator
`django.utils.text.unescape_string_literal` on the quoted interior:
`\<quote>` becomes `<quote>`, then `\\` becomes `\`. -/
def unescapePy (quote : Char) (s : Str) : Str :=
  replacePair '\\' '\\' ['\\'] (replacePair '\\' quote [quote] s)

/-- The collaborator `django.utils.text.unescape_string_literal`: requires
the first character to be a quote and the last character to equal it
(raising `ValueError` otherwise, and `IndexError` on the empty string,
exactly as the Python indexing does), then unescapes the interior. -/
def unescapeStringLiteral (s : Str) : Except Err Str :=
  match s with
  | [] => .error Err.indexError
  | c :: _ =>
    if (c = '"' || c = '\'') && (s.getLast? = some c) then
      .ok (unescapePy c ((s.drop 1).dropLast))
    else .error Err.valueError

/-- The translation-wrapper test of `Variable.__init__`:
`var.startswith('_(') and var.endswith(')')`. -/
def isTransWrapped (s : Str) : Bool :=
  (s.take 2 = chars "_(") && (s.getLast? = some ')')

/-- The numeric-literal step of `Variable.__init__`: the value assigned to
`self.literal` so far, paired with whether the step raised `ValueError`.
The float branch assigns `self.literal = float(var)` first and only then
raises for a trailing `'.'`, so a raising step can leave a float behind in
`literal`. -/
def varInitNumeric (var : Str) : Option Lit × Bool :=
  if hasDotOrE var then
    match pyFloatParse var with
    | some f => if lastIs '.' var then (some (Lit.fl f), true) else (some (Lit.fl f), false)
    | Option.none => (Option.none, true)
  else
    match pyIntParse var with
    | some n => (some (Lit.int n), false)
    | Option.none => (Option.none, true)

/-- The identifier check of `Variable.__init__`:
`var.find('._') > -1 or var[0] == '_'`. -/
def underscoreViolation (var2 : Str) : Bool :=
  hasPair '.' '_' var2 || headIs '_' var2

/-- The `except ValueError` continuation of `Variable.__init__`: strip the
translation wrapper, try a quoted-string literal, otherwise fall through
to the dotted-lookup path — keeping whatever the numeric step left in
`self.literal`. -/
def varInitFallback (var : Str) (lit0 : Option Lit) : Except Err Variable :=
  let tr := isTransWrapped var
  let var2 := if tr then (var.drop 2).dropLast else var
  match unescapeStringLiteral var2 with
  | .ok s => .ok ⟨var, some (Lit.str s), Option.none, tr⟩
  | .error e =>
    if e = Err.valueError then
      if underscoreViolation var2 then
        .error (Err.tse
          (chars "Variables and attributes may not begin with underscores: " ++ var2))
      else .ok ⟨var, lit0, some (splitOnChar '.' var2), tr⟩
    else .error e

/-- `Variable.__init__(var)` for a string argument: numeric-literal step
first; on its `ValueError`, the translation/quoted-string/lookup
fallback. -/
def Variable.init (var : Str) : Except Err Variable :=
  let r := varInitNumeric var
  if r.2 then varInitFallback var r.1 else .ok ⟨var, r.1, Option.none, false⟩

/-- Whether an optional literal is an integer literal. -/
def isIntLit : Option Lit → Bool
  | some (Lit.int _) => true
  | _ => false

section VariableClaims

/-- Case analysis of the numeric-literal step: a step that did not raise
assigned a literal; a step that raised yet left a literal behind is
exactly the trailing-dot float case; under the `'.'`-or-`'e'` branch the
assigned literal is never an integer; and a non-raising step under that
branch implies no trailing dot. -/
theorem varInitNumeric_cases (s : Str) :
    ((varInitNumeric s).2 = false → (varInitNumeric s).1.isSome = true)
    ∧ ((varInitNumeric s).2 = true → (varInitNumeric s).1.isSome = true →
        hasDotOrE s = true ∧ lastIs '.' s = true)
    ∧ (hasDotOrE s = true → isIntLit (varInitNumeric s).1 = false)
    ∧ (hasDotOrE s = true → (varInitNumeric s).2 = false → lastIs '.' s = false) := by
  unfold varInitNumeric
  by_cases hdot : hasDotOrE s = true
  · simp only [if_pos hdot]
    cases hf : pyFloatParse s with
    | none => simp [isIntLit]
    | some f =>
      cases hl : lastIs '.' s with
      | true => simp [hl, hdot, isIntLit]
      | false => simp [hl, hdot, isIntLit]
  · simp only [if_neg hdot]
    cases hi : pyIntParse s with
    | none => simp [hdot, isIntLit]
    | some n => simp [hdot, isIntLit]

/-- Helper: a string ending in `'.'` is not translation-wrapped (which
requires a final `')'`). -/
theorem isTransWrapped_of_dot (s : Str) (h : s.getLast? = some '.') :
    isTransWrapped s = false := by
  unfold isTransWrapped
  rw [h]
  simp

/-- Helper: a string ending in `'.'` is not a quoted-string literal, so
`unescape_string_literal` raises `ValueError` on it. -/
theorem unescape_of_dot (s : Str) (hne : s ≠ []) (h : s.getLast? = some '.') :
    unescapeStringLiteral s = .error Err.valueError := by
  cases s with
  | nil => exact absurd rfl hne
  | cons c rest =>
    simp only [unescapeStringLiteral]
    have hcond : ((c = '"' || c = '\'') && (((c :: rest).getLast? = some c) : Bool)) = false := by
      rw [h]
      by_cases hc : c = '.'
      · subst hc; rfl
      · have h2 : (decide (some '.' = some c)) = false :=
          decide_eq_false (fun heq => hc (Option.some.inj heq).symm)
        rw [h2, Bool.and_false]
    rw [if_neg (by rw [hcond]; exact Bool.false_ne_true)]

/-- C2 (amended): for every input string the `Variable` constructor
accepts, at least one of `literal` and `lookups` is set, and the only
inputs for which both end up set are the trailing-`'.'` numeric inputs
(containing `'.'` or a case-insensitive `'e'` and ending with `'.'`),
where the float branch assigns `self.literal` before raising for the
trailing dot and the fallback then also sets `lookups`. -/
theorem c2_literal_lookups (s : Str) (v : Variable)
    (h : Variable.init s = .ok v) :
    (v.literal.isSome || v.lookups.isSome) = true
    ∧ (v.literal.isSome = true → v.lookups.isSome = true →
        hasDotOrE s = true ∧ lastIs '.' s = true) := by
  obtain ⟨hA, hB, _, _⟩ := varInitNumeric_cases s
  unfold Variable.init at h
  by_cases hr : (varInitNumeric s).2 = true
  · rw [if_pos hr] at h
    simp only [varInitFallback] at h
    cases hu : unescapeStringLiteral
        (if isTransWrapped s = true then (s.drop 2).dropLast else s) with
    | ok s' =>
      rw [hu] at h
      dsimp only at h
      injection h with h
      subst h
      simp
    | error e =>
      rw [hu] at h
      dsimp only at h
      by_cases he : e = Err.valueError
      · rw [if_pos he] at h
        by_cases huv : underscoreViolation
            (if isTransWrapped s = true then (s.drop 2).dropLast else s) = true
        · rw [if_pos huv] at h
          simp at h
        · rw [if_neg huv] at h
          injection h with h
          subst h
          simp only [Option.isSome_some, Bool.or_true, true_and]
          intro hlit _
          exact hB hr hlit
      · rw [if_neg he] at h
        simp at h
  · rw [if_neg hr] at h
    injection h with h
    subst h
    simp only [Option.isSome_none, Bool.or_false]
    constructor
    · exact hA (by simpa using hr)
    · intro _ hcon
      simp at hcon

/-- C2 (counterexample): the claim asserts that never both fields are set,
but for the accepted input `"2."` the constructor leaves the parsed float
in `literal` (assigned before the trailing-dot `ValueError`) and also sets
`lookups` on the fallback path — both fields are set. -/
theorem c2_counterexample :
    (Variable.init (chars "2.")).map (fun v => (v.literal.isSome, v.lookups.isSome))
      = .ok (true, true) := rfl

/-- C2 witness variable: the parse of the plain lookup `"name"`. -/
def c2WitVar : Variable := ⟨chars "name", Option.none, some [chars "name"], false⟩

/-- C2 witness: for the accepted lookup input `"name"`, at least one field
is set and the both-set case would require a trailing-dot numeric input. -/
theorem c2_witness :
    (c2WitVar.literal.isSome || c2WitVar.lookups.isSome) = true
    ∧ (c2WitVar.literal.isSome = true → c2WitVar.lookups.isSome = true →
        hasDotOrE (chars "name") = true ∧ lastIs '.' (chars "name") = true) :=
  c2_literal_lookups (chars "name") c2WitVar rfl

/-- C9 (amended): in the numeric-literal step, an input containing `'.'`
or a case-insensitive `'e'` is attempted as a float and never yields an
integer literal; an input with a trailing `'.'` (such as `"2."`) is
rejected by the numeric step (the step raises `ValueError`) and the
variable falls through to the dotted-lookup path, so `lookups` is set and
`resolve` treats it as a lookup — but the `literal` field retains the
parsed float value rather than being cleared. -/
theorem c9_numeric_step (s : Str) (v : Variable)
    (hdot : hasDotOrE s = true)
    (h : Variable.init s = .ok v) :
    isIntLit v.literal = false
    ∧ (lastIs '.' s = true → v.lookups.isSome = true) := by
  obtain ⟨_, _, hC, hD⟩ := varInitNumeric_cases s
  unfold Variable.init at h
  by_cases hr : (varInitNumeric s).2 = true
  · rw [if_pos hr] at h
    simp only [varInitFallback] at h
    by_cases hld : lastIs '.' s = true
    · have hg : s.getLast? = some '.' := of_decide_eq_true hld
      have hsne : s ≠ [] := by
        intro hcon
        rw [hcon] at hg
        simp at hg
      have htw : isTransWrapped s = false := isTransWrapped_of_dot s hg
      have hvar2 : (if isTransWrapped s = true then (s.drop 2).dropLast else s) = s := by
        rw [htw]
        simp
      rw [hvar2, unescape_of_dot s hsne hg] at h
      dsimp only at h
      by_cases huv : underscoreViolation s = true
      · rw [if_pos huv] at h
        simp at h
      · rw [if_neg huv] at h
        injection h with h
        subst h
        exact ⟨hC hdot, fun _ => rfl⟩
    · refine ⟨?_, fun hcon => absurd hcon hld⟩
      cases hu : unescapeStringLiteral
          (if isTransWrapped s = true then (s.drop 2).dropLast else s) with
      | ok s' =>
        rw [hu] at h
        dsimp only at h
        injection h with h
        subst h
        rfl
      | error e =>
        rw [hu] at h
        dsimp only at h
        by_cases he : e = Err.valueError
        · rw [if_pos he] at h
          by_cases huv : underscoreViolation
              (if isTransWrapped s = true then (s.drop 2).dropLast else s) = true
          · rw [if_pos huv] at h
            simp at h
          · rw [if_neg huv] at h
            injection h with h
            subst h
            exact hC hdot
        · rw [if_neg he] at h
          simp at h
  · rw [if_neg hr] at h
    injection h with h
    subst h
    exact ⟨hC hdot, fun hcon => absurd (hD hdot (by simpa using hr)) (by simp [hcon])⟩

/-- C9 (counterexample): the claim asserts that a trailing-`'.'` input
does not yield a float literal value, but for `"3."` the constructor
leaves the parsed float `3.` in `literal` (alongside the lookup
segments). -/
theorem c9_counterexample :
    (Variable.init (chars "3.")).map (fun v => (v.literal, v.lookups))
      = .ok (some (Lit.fl (chars "3.")), some [chars "3", []]) := rfl

/-- C9 witness variable: the parse of the trailing-dot input `"4."`. -/
def c9WitVar : Variable :=
  ⟨chars "4.", some (Lit.fl (chars "4.")), some [chars "4", []], false⟩

/-- C9 witness: for the accepted input `"4."` (which contains `'.'`), the
literal is not an integer and, the input ending with `'.'`, the lookup
path was taken. -/
theorem c9_witness :
    isIntLit c9WitVar.literal = false
    ∧ (lastIs '.' (chars "4.") = true → c9WitVar.lookups.isSome = true) :=
  c9_numeric_step (chars "4.") c9WitVar rfl rfl

end VariableClaims

/-- The four token kinds of `TokenType`. -/
inductive TokenType where
  | text
  | var
  | block
  | comment
deriving DecidableEq

/-- A lexer token: type, contents, optional `(start, end)` position and
line number (always supplied by both tokenizers). -/
structure Token where
  tokenType : TokenType
  contents : Str
  position : Option (Nat × Nat)
  lineno : Nat
deriving DecidableEq

/-- Python `str.strip()`: remove surrounding whitespace. -/
def pyStrip (s : Str) : Str :=
  ((s.dropWhile isPySpace).reverse.dropWhile isPySpace).reverse

/-- The `token_string[2:-2]` slice stripping the tag delimiters. -/
def interior (ts : Str) : Str := ((ts.drop 2).dropLast).dropLast

/-- Two-character prefix test. -/
def startsWith2 (a b : Char) : Str → Bool
  | x :: y :: _ => x = a && y = b
  | _ => false

/-- Python `hay.find(needle)` (as an option instead of `-1`). -/
def pyFind (needle : Str) : Str → Option Nat
  | [] => if needle = [] then some 0 else Option.none
  | h :: t =>
    if needle.isPrefixOf (h :: t) then some 0
    else (pyFind needle t).map (· + 1)

/-- First character of the closing delimiter matching an opening
`{`-pair: `%` for `{% %}`, `}` for two braces, `#` for `{# #}`. -/
def closerOf (c : Char) : Option Char :=
  if c = '%' then some '%'
  else if c = '{' then some '}'
  else if c = '#' then some '#'
  else Option.none

/-- Index of the first occurrence of the two-character closer `a`-`}` in
the interior, failing at a newline first (the `.*?` of `tag_re` is
compiled without `DOTALL`, so a tag cannot span lines). -/
def findCloser (a : Char) : Str → Option Nat
  | x :: y :: t =>
    if x = a && y = '}' then some 0
    else if x = '\n' then Option.none
    else (findCloser a (y :: t)).map (· + 1)
  | _ => Option.none

/-- Scanner realizing `tag_re` over the source: produces the alternating
split of `re.split` as a list of (text gap, matched tag) pairs followed by
the trailing text.  Gaps may be empty; concatenating
`gap₀ tag₁ gap₁ tag₂ … last` yields the source.  A leftmost
shortest-interior match is taken at each opening delimiter, exactly as the
non-greedy `tag_re` alternation does. -/
def tagScanAux : Str → Str → List (Str × Str) × Str
  | accRev, [] => ([], accRev.reverse)
  | accRev, [c] => ([], accRev.reverse ++ [c])
  | accRev, c0 :: c1 :: t =>
    match (if c0 = '{' then closerOf c1 else Option.none) with
    | some a =>
      match findCloser a t with
      | some i =>
        let tag := c0 :: c1 :: t.take (i + 2)
        let r := tagScanAux [] (t.drop (i + 2))
        ((accRev.reverse, tag) :: r.1, r.2)
      | Option.none => tagScanAux (c0 :: accRev) (c1 :: t)
    | Option.none => tagScanAux (c0 :: accRev) (c1 :: t)
termination_by _ l => l.length
decreasing_by
  all_goals simp only [List.length_cons, List.length_drop]
  all_goals omega

/-- `tag_re` split of a source string. -/
def tagScan (source : Str) : List (Str × Str) × Str := tagScanAux [] source

/-- The position- and line-independent part of `Lexer.create_token`:
computes the token type, the token contents and the updated verbatim
state from the raw piece and the `in_tag` flag. -/
def createTokenCore (verbatim : Option Str) (tokenString : Str) (inTag : Bool) :
    TokenType × Str × Option Str :=
  let blockContent := pyStrip (interior tokenString)
  let verbatim1 :=
    if inTag && startsWith2 '{' '%' tokenString && verbatim = some blockContent
    then Option.none else verbatim
  if inTag && verbatim1.isNone then
    if startsWith2 '{' '{' tokenString then
      (TokenType.var, pyStrip (interior tokenString), verbatim1)
    else if startsWith2 '{' '%' tokenString then
      let verbatim2 :=
        if blockContent.take 9 = chars "verbatim" || blockContent.take 9 = chars "verbatim "
        then some (chars "end" ++ blockContent) else verbatim1
      (TokenType.block, blockContent, verbatim2)
    else if startsWith2 '{' '#' tokenString then
      let content :=
        if pyFind (chars "Translators") tokenString = some 0 then []
        else pyStrip (interior tokenString)
      (TokenType.comment, content, verbatim1)
    else (TokenType.text, tokenString, verbatim1)
  else (TokenType.text, tokenString, verbatim1)

/-- `Lexer.create_token(token_string, position, lineno, in_tag)`: the core
result with the given position and line number attached, paired with the
updated verbatim state. -/
def createToken (verbatim : Option Str) (tokenString : Str)
    (position : Option (Nat × Nat)) (lineno : Nat) (inTag : Bool) :
    Token × Option Str :=
  let r := createTokenCore verbatim tokenString inTag
  (⟨r.1, r.2.1, position, lineno⟩, r.2.2)

/-- Newline count of a piece, used for line-number accounting. -/
def countNl (s : Str) : Nat := s.count '\n'

/-- `Lexer.tokenize` over the alternating split: empty bits are skipped
(`if bit:`), `in_tag` alternates text/tag, line numbers advance by the
newlines of every bit, no positions are recorded. -/
def Lexer.tokenizeAux (verbatim : Option Str) (lineno : Nat) :
    List (Str × Str) → Str → List Token
  | [], lastBit =>
    if lastBit = [] then []
    else [(createToken verbatim lastBit Option.none lineno false).1]
  | (gap, tag) :: rest, lastBit =>
    let gapStep : List Token × Option Str :=
      if gap = [] then ([], verbatim)
      else
        let r := createToken verbatim gap Option.none lineno false
        ([r.1], r.2)
    let ln1 := lineno + countNl gap
    let r2 := createToken gapStep.2 tag Option.none ln1 true
    gapStep.1 ++ r2.1 :: Lexer.tokenizeAux r2.2 (ln1 + countNl tag) rest lastBit

/-- `Lexer.tokenize(template_string)`. -/
def Lexer.tokenize (source : Str) : List Token :=
  let r := tagScan source
  Lexer.tokenizeAux Option.none 1 r.1 r.2

/-- `DebugLexer.tokenize` over the same split: identical walk, but each
token records its exact `(start, end)` character offsets (gaps are
emitted only when nonempty, as `start > upto` checks). -/
def DebugLexer.tokenizeAux (verbatim : Option Str) (lineno upto : Nat) :
    List (Str × Str) → Str → List Token
  | [], lastBit =>
    if lastBit = [] then []
    else [(createToken verbatim lastBit (some (upto, upto + lastBit.length)) lineno false).1]
  | (gap, tag) :: rest, lastBit =>
    let gapStep : List Token × Option Str :=
      if gap = [] then ([], verbatim)
      else
        let r := createToken verbatim gap (some (upto, upto + gap.length)) lineno false
        ([r.1], r.2)
    let ln1 := lineno + countNl gap
    let start := upto + gap.length
    let r2 := createToken gapStep.2 tag (some (start, start + tag.length)) ln1 true
    gapStep.1 ++ r2.1 ::
      DebugLexer.tokenizeAux r2.2 (ln1 + countNl tag) (start + tag.length) rest lastBit

/-- `DebugLexer.tokenize(template_string)`. -/
def DebugLexer.tokenize (source : Str) : List Token :=
  let r := tagScan source
  DebugLexer.tokenizeAux Option.none 1 0 r.1 r.2

/-- Forget a token's recorded position. -/
def erasePos (t : Token) : Token := { t with position := Option.none }

/-- Concatenation of a gap/tag pair list. -/
def joinPairs : List (Str × Str) → Str
  | [] => []
  | (gap, tag) :: rest => gap ++ tag ++ joinPairs rest

section LexerClaims

/-- The scan partitions its input: gaps, tags and the trailing text
concatenate back to the source (so the cumulative offsets the debug walk
records are exact positions in the source). -/
theorem tagScanAux_join :
    ∀ (l accRev : Str),
      joinPairs (tagScanAux accRev l).1 ++ (tagScanAux accRev l).2
        = accRev.reverse ++ l
  | [], accRev => by simp [tagScanAux, joinPairs]
  | [c], accRev => by simp [tagScanAux, joinPairs]
  | c0 :: c1 :: t, accRev => by
    simp only [tagScanAux]
    cases hcl : (if c0 = '{' then closerOf c1 else Option.none) with
    | none =>
      dsimp only
      rw [tagScanAux_join (c1 :: t) (c0 :: accRev)]
      simp
    | some a =>
      dsimp only
      cases hfc : findCloser a t with
      | none =>
        dsimp only
        rw [tagScanAux_join (c1 :: t) (c0 :: accRev)]
        simp
      | some i =>
        dsimp only [joinPairs]
        simp only [List.append_assoc, List.cons_append]
        rw [tagScanAux_join (t.drop (i + 2)) []]
        simp [List.take_append_drop]
termination_by l accRev => l.length
decreasing_by
  all_goals simp only [List.length_cons, List.length_drop]
  all_goals omega

/-- `tag_re` pieces tile the whole source. -/
theorem tagScan_join (source : Str) :
    joinPairs (tagScan source).1 ++ (tagScan source).2 = source := by
  unfold tagScan
  rw [tagScanAux_join source []]
  rfl

/-- Helper: both tokenizers walk the split in lockstep — the fast walk is
the position-erased debug walk, from any shared verbatim/lineno state and
any starting offset. -/
theorem tokenizeAux_erase (pairs : List (Str × Str)) :
    ∀ (verbatim : Option Str) (lineno upto : Nat) (lastBit : Str),
      Lexer.tokenizeAux verbatim lineno pairs lastBit
        = (DebugLexer.tokenizeAux verbatim lineno upto pairs lastBit).map erasePos := by
  induction pairs with
  | nil =>
    intro v ln u last
    by_cases hl : last = [] <;>
      simp [Lexer.tokenizeAux, DebugLexer.tokenizeAux, hl, createToken, erasePos]
  | cons p rest ih =>
    intro v ln u last
    obtain ⟨gap, tag⟩ := p
    by_cases hg : gap = []
    · simp [Lexer.tokenizeAux, DebugLexer.tokenizeAux, hg, createToken, erasePos]
      exact ih _ _ _ _
    · simp [Lexer.tokenizeAux, DebugLexer.tokenizeAux, hg, createToken, erasePos]
      exact ih _ _ _ _

/-- Helper: every token the debug walk emits carries a recorded position. -/
theorem debugAux_pos_some (pairs : List (Str × Str)) :
    ∀ (verbatim : Option Str) (lineno upto : Nat) (lastBit : Str),
      (DebugLexer.tokenizeAux verbatim lineno upto pairs lastBit).all
        (fun t => t.position.isSome) = true := by
  induction pairs with
  | nil =>
    intro v ln u last
    by_cases hl : last = [] <;> simp [DebugLexer.tokenizeAux, hl, createToken]
  | cons p rest ih =>
    intro v ln u last
    obtain ⟨gap, tag⟩ := p
    by_cases hg : gap = [] <;> simp [DebugLexer.tokenizeAux, hg, createToken, ih]

/-- C5: for every source string, `Lexer.tokenize` and
`DebugLexer.tokenize` produce the same token sequence — equal
`token_type`, `contents` and `lineno` at every index (the fast result is
exactly the position-erased debug result) — with the fast lexer leaving
every `position` unset and the debug lexer populating every token's
`position` with its `(start, end)` character offsets. -/
theorem c5_lexer_debug_equivalence (source : Str) :
    Lexer.tokenize source = (DebugLexer.tokenize source).map erasePos
    ∧ (Lexer.tokenize source).all (fun t => t.position.isNone) = true
    ∧ (DebugLexer.tokenize source).all (fun t => t.position.isSome) = true := by
  refine ⟨tokenizeAux_erase (tagScan source).1 Option.none 1 0 (tagScan source).2, ?_, ?_⟩
  · rw [Lexer.tokenize]
    rw [tokenizeAux_erase (tagScan source).1 Option.none 1 0 (tagScan source).2]
    simp [erasePos]
  · exact debugAux_pos_some (tagScan source).1 Option.none 1 0 (tagScan source).2

end LexerClaims

/-- The engine configuration the resolver consults:
`string_if_invalid` (default `''`) and `debug`. -/
structure Engine where
  stringIfInvalid : Str
  debug : Bool

/-- The template object reached through `context.template`, carrying its
engine. -/
structure TemplateRef where
  engine : Engine

/-- The render-time `Context` as the resolver sees it: the frame stack,
the escaping/timezone flags and the bound template (set by
`bind_template`, `None` outside a render). -/
structure Context where
  dicts : List Frame
  autoescape : Bool
  useTz : Bool
  template : Option TemplateRef

/-- `context.template.engine.string_if_invalid`: `AttributeError` when no
template is bound. -/
def siiOf (ctx : Context) : Except Err Str :=
  match ctx.template with
  | some tr => .ok tr.engine.stringIfInvalid
  | Option.none => .error Err.attributeError

/-- The post-lookup callable handling of `Variable._resolve_lookup`: a
callable with `do_not_call_in_templates` is left as is; one with
`alters_data` is replaced by `string_if_invalid`; otherwise it is called
with no arguments, and a call that raises `TypeError` because arguments
were required is replaced by `string_if_invalid`. -/
def callablePost (cur : Val) (ctx : Context) : Except Err Val :=
  match cur with
  | Val.vCallable dnc ad res =>
    if dnc then .ok cur
    else if ad then (siiOf ctx).map Val.vStr
    else
      match res with
      | some v => .ok v
      | Option.none => (siiOf ctx).map Val.vStr
  | _ => .ok cur

/-- Python sequence indexing with negative indices. -/
def pyIndexVals (l : List Val) (n : Int) : Option Val :=
  if 0 ≤ n then l.get? n.toNat
  else if 0 ≤ n + l.length then l.get? (n + l.length).toNat
  else Option.none

/-- Python string indexing with negative indices. -/
def pyIndexChars (s : Str) (n : Int) : Option Char :=
  if 0 ≤ n then s.get? n.toNat
  else if 0 ≤ n + s.length then s.get? (n + s.length).toNat
  else Option.none

/-- One segment step of `Variable._resolve_lookup` on a data value:
dictionary lookup first, then attribute lookup (data values carry no
attributes in this model), then integer-index lookup; when all three fail
the step raises `VariableDoesNotExist` carrying the failing segment. -/
def subscriptStep (cur : Val) (bit : Str) : Except Err Val :=
  match cur with
  | Val.vDict entries =>
    match frameLookup entries bit with
    | some v => .ok v
    | Option.none => .error (Err.varDNE bit)
  | Val.vList elems =>
    match pyIntParse bit with
    | some n =>
      match pyIndexVals elems n with
      | some v => .ok v
      | Option.none => .error (Err.varDNE bit)
    | Option.none => .error (Err.varDNE bit)
  | Val.vStr s =>
    match pyIntParse bit with
    | some n =>
      match pyIndexChars s n with
      | some c => .ok (Val.vStr [c])
      | Option.none => .error (Err.varDNE bit)
    | Option.none => .error (Err.varDNE bit)
  | _ => .error (Err.varDNE bit)

/-- The tail of the `_resolve_lookup` walk after the first segment:
subscript step then callable handling, left to right. -/
def resolveLookupRest : List Str → Val → Context → Except Err Val
  | [], cur, _ => .ok cur
  | b :: rest, cur, ctx =>
    match subscriptStep cur b with
    | .ok v =>
      match callablePost v ctx with
      | .ok v1 => resolveLookupRest rest v1 ctx
      | .error e => .error e
    | .error e => .error e

/-- `Variable._resolve_lookup(context)`: the first segment is looked up in
the context itself (newest-to-oldest frame search; the `BaseContext`
attribute guard makes attribute fallback always fail there, so a missing
key is `VariableDoesNotExist`), then the remaining segments walk the
current value.  `VariableDoesNotExist` has no `silent_variable_failure`
flag, so it propagates out of the catch-all. -/
def resolveLookup (bits : List Str) (ctx : Context) : Except Err Val :=
  match bits with
  | [] => .error Err.typeError
  | b :: rest =>
    match BaseContext.stackLookup ctx.dicts b with
    | some v0 =>
      match callablePost v0 ctx with
      | .ok v1 => resolveLookupRest rest v1 ctx
      | .error e => .error e
    | Option.none => .error (Err.varDNE b)

/-- Python `value.replace('%', '%%')` applied before translation. -/
def doublePercent (s : Str) : Str :=
  s.foldr (fun c acc => if c = '%' then '%' :: '%' :: acc else c :: acc) []

/-- The value denoted by the `literal` field. -/
def litToVal : Option Lit → Val
  | some (Lit.int n) => Val.vInt n
  | some (Lit.fl r) => Val.vFl r
  | some (Lit.str t) => Val.vStr t
  | Option.none => Val.vNone

/-- `Variable.resolve(context)`: lookups walk when `lookups` is set,
otherwise the already-resolved literal; a `translate`-flagged value has
its percents doubled and goes through the localization service (modelled
as the identity; a non-string value raises `AttributeError` at the
`replace` call, as in Python). -/
def Variable.resolve (v : Variable) (ctx : Context) : Except Err Val :=
  match (match v.lookups with
         | some lks => resolveLookup lks ctx
         | Option.none => .ok (litToVal v.literal)) with
  | .ok value =>
    if v.translate then
      match value with
      | Val.vStr s => .ok (Val.vStr (doublePercent s))
      | _ => .error Err.attributeError
    else .ok value
  | .error e => .error e

/-- A registered filter callback: the Lean function receives the input
value, the resolved arguments and (when `needs_autoescape`) the context's
autoescape flag.  `expects_localtime` timezone coercion is the external
timezone service, modelled as the identity; `is_safe`/`mark_safe`
re-marking is erased together with safe-string tracking. -/
structure Filter where
  fn : Val → List Val → Option Bool → Val
  expectsLocaltime : Bool
  isSafe : Bool
  needsAutoescape : Bool

/-- One filter argument as stored by `FilterExpression.__init__`: a
constant already resolved at compile time (`lookup=False`), or a
`Variable` resolved against the live context (`lookup=True`). -/
inductive FilterArg where
  | constA (v : Val)
  | varA (v : Variable)

/-- The `var` attribute of a `FilterExpression`: a `Variable`, a constant
resolved at compile time, or `None` (a constant whose compile-time resolve
raised `VariableDoesNotExist`). -/
inductive VarObj where
  | vVar (v : Variable)
  | resolved (v : Val)
  | noneObj

/-- A compiled `FilterExpression`: the raw token text, the variable part
and the ordered filter chain with per-filter arguments. -/
structure FilterExpression where
  token : Str
  var : VarObj
  filters : List (Filter × List FilterArg)

/-- Resolve the argument list of one filter: constants pass through
(`mark_safe` modelled as the identity), dynamic arguments resolve against
the context — and may themselves raise. -/
def resolveArgs : List FilterArg → Context → Except Err (List Val)
  | [], _ => .ok []
  | a :: rest, ctx =>
    match (match a with
           | FilterArg.constA v => Except.ok v
           | FilterArg.varA pv => Variable.resolve pv ctx) with
    | .ok v => (resolveArgs rest ctx).map (fun l => v :: l)
    | .error e => .error e

/-- The filter loop of `FilterExpression.resolve`: apply each filter left
to right to the accumulated value (the `expects_localtime` timezone
coercion is the identity in this model; `needs_autoescape` passes the
context's autoescape flag). -/
def applyFilters : List (Filter × List FilterArg) → Context → Val → Except Err Val
  | [], _, obj => .ok obj
  | (f, args) :: rest, ctx, obj =>
    match resolveArgs args ctx with
    | .ok argVals =>
      applyFilters rest ctx
        (if f.needsAutoescape then f.fn obj argVals (some ctx.autoescape)
         else f.fn obj argVals Option.none)
    | .error e => .error e

/-- Python `fmt % obj` for a format string holding a single `'%s'`
placeholder (the only use on the `string_if_invalid` path): the first
`'%s'` is replaced by `str(obj)`. -/
def percentS : Str → Str → Str
  | [], _ => []
  | '%' :: 's' :: t, arg => arg ++ t
  | c :: t, arg => c :: percentS t arg

/-- Python `'%s' in string_if_invalid`. -/
def hasPercentS (fmt : Str) : Bool := (pyFind (chars "%s") fmt).isSome

/-- `FilterExpression.resolve(context, ignore_failures=False)`: a
`VariableDoesNotExist` from the variable is swallowed — with
`ignore_failures` the value becomes `None`; otherwise a truthy
`string_if_invalid` is returned at once (interpolated through `'%s'` with
the variable's expression text, skipping the filters) and a falsy one is
substituted for the value and filtered normally.  Any other exception
propagates. -/
def FilterExpression.resolve (fe : FilterExpression) (ctx : Context)
    (ignoreFailures : Bool) : Except Err Val :=
  match fe.var with
  | VarObj.vVar v =>
    match Variable.resolve v ctx with
    | .ok obj => applyFilters fe.filters ctx obj
    | .error (Err.varDNE _) =>
      if ignoreFailures then applyFilters fe.filters ctx Val.vNone
      else
        match ctx.template with
        | some tr =>
          if tr.engine.stringIfInvalid ≠ [] then
            if hasPercentS tr.engine.stringIfInvalid then
              .ok (Val.vStr (percentS tr.engine.stringIfInvalid v.var))
            else .ok (Val.vStr tr.engine.stringIfInvalid)
          else applyFilters fe.filters ctx (Val.vStr tr.engine.stringIfInvalid)
        | Option.none => .error Err.attributeError
    | .error e => .error e
  | VarObj.resolved val => applyFilters fe.filters ctx val
  | VarObj.noneObj => applyFilters fe.filters ctx Val.vNone

/-- A compiled node: `TextNode`, `VariableNode`, or an extension node
produced by a registered tag compiler (carrying its command name, its
`must_be_first` flag and its child nodes). -/
inductive Node where
  | text (s : Str)
  | variableNode (fe : FilterExpression)
  | tag (name : Str) (mustBeFirst : Bool) (children : List Node)

/-- `isinstance(node, TextNode)`. -/
def nodeIsText : Node → Bool
  | Node.text _ => true
  | _ => false

/-- The node's `must_be_first` attribute (`False` on the `Node` base
class; extension classes such as the `extends` node set it). -/
def nodeMustBeFirst : Node → Bool
  | Node.tag _ m _ => m
  | _ => false

/-- Model of Python `repr(node)` used in the misplaced-tag message. -/
def nodeRepr : Node → Str
  | Node.text _ => chars "<TextNode>"
  | Node.variableNode _ => chars "<Variable Node>"
  | Node.tag name _ _ => chars "<Tag " ++ name ++ ['>']

/-- Python `str(value)` on the modelled values (float/dict/list renderings
are approximations; no claim depends on them). -/
def pyStrOfVal : Val → Str
  | Val.vNone => chars "None"
  | Val.vBool true => chars "True"
  | Val.vBool false => chars "False"
  | Val.vInt n => chars (toString n)
  | Val.vFl raw => raw
  | Val.vStr s => s
  | Val.vDict _ => chars "<dict>"
  | Val.vList _ => chars "<list>"
  | Val.vCallable _ _ _ => chars "<callable>"

/-- The escaping service `escape`: HTML-escape the five special
characters. -/
def htmlEscape (s : Str) : Str :=
  s.foldr
    (fun c acc =>
      if c = '&' then chars "&amp;" ++ acc
      else if c = '<' then chars "&lt;" ++ acc
      else if c = '>' then chars "&gt;" ++ acc
      else if c = '"' then chars "&quot;" ++ acc
      else if c = '\'' then chars "&#x27;" ++ acc
      else c :: acc) []

/-- `render_value_in_context`: localization is the external service
(identity here); under autoescape the string is conditionally escaped
(safe-string tracking is erased, so escaping is modelled
unconditionally). -/
def renderValueInContext (value : Val) (ctx : Context) : Str :=
  if ctx.autoescape then htmlEscape (pyStrOfVal value) else pyStrOfVal value

/-- `Node.render(context)` for the node kinds owned by this module:
`TextNode` returns its string; `VariableNode` resolves its filter
expression and converts the result; extension-node rendering is supplied
by external tag libraries and out of scope (their bodies do not exist in
this repository). -/
def nodeRender (n : Node) (ctx : Context) : Except Err Str :=
  match n with
  | Node.text s => .ok s
  | Node.variableNode fe =>
    match FilterExpression.resolve fe ctx false with
    | .ok out => .ok (renderValueInContext out ctx)
    | .error e => .error e
  | Node.tag _ _ _ => .ok []

/-- `NodeList.render`: render every member in order and concatenate
(`render_annotated` only attaches debug metadata to an exception and does
not alter propagation, so it is the same function here). -/
def renderNodes : List Node → Context → Except Err Str
  | [], _ => .ok []
  | n :: rest, ctx =>
    match nodeRender n ctx with
    | .ok s =>
      match renderNodes rest ctx with
      | .ok acc => .ok (s ++ acc)
      | .error e => .error e
    | .error e => .error e

/-- A `NodeList`: the ordered nodes plus the derived `contains_nontext`
flag maintained by `Parser.extend_nodelist`. -/
structure NodeList where
  nodes : List Node
  containsNontext : Bool

/-- The `NodeList()` a `parse` call starts from. -/
def emptyNodeList : NodeList := ⟨[], false⟩

/-- `NodeList.render(context)`. -/
def NodeList.render (nl : NodeList) (ctx : Context) : Except Err Str :=
  renderNodes nl.nodes ctx

namespace Parser

/-- Mutable parser state: the token queue and the diagnostic command
stack (innermost open command last, as `command_stack.append`/`pop`
maintain it). -/
structure PState where
  tokens : List Token
  commandStack : List (Str × Token)

/-- `Parser.extend_nodelist(nodelist, node, token)`: reject a
`must_be_first` node when the list already contains a non-text node,
otherwise append and update `contains_nontext` (the `token`/`origin`
back-references are diagnostic only and not modelled). -/
def extendNodelist (nl : NodeList) (node : Node) (_tok : Token) :
    Except Err NodeList :=
  if nodeMustBeFirst node && nl.containsNontext then
    .error (Err.tse (nodeRepr node ++ chars " must be the first tag in the template."))
  else
    .ok ⟨nl.nodes ++ [node], nl.containsNontext || !(nodeIsText node)⟩

/-- Decimal rendering of a line number for diagnostic messages. -/
def natChars (n : Nat) : Str := (toString n).data

/-- Python `sep.join(items)`. -/
def joinSep (sep : Str) : List Str → Str
  | [] => []
  | [x] => x
  | x :: rest => x ++ sep ++ joinSep sep rest

/-- The collaborator `django.utils.text.get_text_list`:
`"a, b or c"`-style lists. -/
def getTextList (items : List Str) (conj : Str) : Str :=
  match items.reverse with
  | [] => []
  | [x] => x
  | last :: initRev =>
    joinSep (chars ", ") initRev.reverse ++ [' '] ++ conj ++ [' '] ++ last

/-- The message of `Parser.unclosed_block_tag`:
`"Unclosed tag on line %d: '%s'. Looking for one of: %s."`. -/
def unclosedMsg (lineno : Nat) (command : Str) (parseUntil : List Str) : Str :=
  chars "Unclosed tag on line " ++ natChars lineno ++ chars ": '" ++ command
    ++ chars "'. Looking for one of: " ++ joinSep (chars ", ") parseUntil ++ chars "."

/-- `Parser.unclosed_block_tag(parse_until)`: pop the innermost entry of
the command stack and raise the unclosed-tag error naming it and its line
number; popping an empty stack is Python's `IndexError`. -/
def unclosedBlockTag (commandStack : List (Str × Token)) (parseUntil : List Str) : Err :=
  match commandStack.getLast? with
  | some p => Err.tse (unclosedMsg p.2.lineno p.1 parseUntil)
  | Option.none => Err.indexError

/-- `Parser.invalid_block_tag(token, command, parse_until)`: the
unregistered-tag error, with the expected-terminators hint when
`parse_until` is nonempty. -/
def invalidBlockTagErr (token : Token) (command : Str) (parseUntil : List Str) : Err :=
  if parseUntil ≠ [] then
    Err.tse (chars "Invalid block tag on line " ++ natChars token.lineno ++ chars ": '"
      ++ command ++ chars "', expected "
      ++ getTextList (parseUntil.map (fun p => ['\''] ++ p ++ ['\''])) (chars "or")
      ++ chars ". Did you forget to register or load this tag?")
  else
    Err.tse (chars "Invalid block tag on line " ++ natChars token.lineno ++ chars ": '"
      ++ command ++ chars "'. Did you forget to register or load this tag?")

/-- The behaviour of a registered tag-compiler callback, as `parse`
interprets it: `leaf` compiles to a childless node (carrying the
`must_be_first` flag of its node class), `blockTag` recursively parses its
body up to one of the end keywords and then deletes the stop token (the
`do_block`/`do_if` pattern), `failTag` raises. -/
inductive TagSpec where
  | leaf (mustBeFirst : Bool)
  | blockTag (endTags : List Str)
  | failTag (msg : Str)

/-- The `parser.tags` registry. -/
abbrev TagMap := List (Str × TagSpec)

/-- Registry lookup. -/
def lookupTag : TagMap → Str → Option TagSpec
  | [], _ => Option.none
  | (n, sp) :: rest, c => if n = c then some sp else lookupTag rest c

/-- Python `str.split()` with no argument: split on whitespace runs,
dropping empty pieces. -/
def splitWsAux : Str → Str → List Str
  | acc, [] => if acc = [] then [] else [acc.reverse]
  | acc, c :: t =>
    if isPySpace c then
      if acc = [] then splitWsAux [] t else acc.reverse :: splitWsAux [] t
    else splitWsAux (c :: acc) t

/-- `token.contents.split()`. -/
def splitWs (s : Str) : List Str := splitWsAux [] s

/-- `Parser.compile_filter`, i.e. the `FilterExpression` constructor bound
to this parser's filter registry.  `parse` is parameterized on it; the
claims do not concern the regex-driven constructor itself. -/
abbrev CompileFilter := Str → Except Err FilterExpression

/-- `Parser.parse(parse_until)`: pop tokens one at a time — text tokens
append a `TextNode`; variable tokens reject empty contents and compile a
`VariableNode`; block tokens take their first word as the command,
return to the caller when the command is a stop keyword (pushing the
token back), and otherwise push the command on the diagnostic stack, run
the registered compiler, append its node and pop the stack entry;
comment tokens are discarded.  When the queue empties with `parse_until`
nonempty, raise the unclosed-tag error from the innermost stack entry.
The `fuel` bound makes the recursion total; every loop step and every
recursive body parse consumes fuel. -/
def parseAux (cf : CompileFilter) (tags : TagMap) :
    Nat → PState → List Str → NodeList → Except Err (NodeList × PState)
  | 0, _, _, _ => .error Err.fuelOut
  | fuel + 1, st, parseUntil, nodelist =>
    match st.tokens with
    | [] =>
      if parseUntil = [] then .ok (nodelist, st)
      else .error (unclosedBlockTag st.commandStack parseUntil)
    | token :: rest =>
      match token.tokenType with
      | TokenType.text =>
        match extendNodelist nodelist (Node.text token.contents) token with
        | .ok nl1 => parseAux cf tags fuel ⟨rest, st.commandStack⟩ parseUntil nl1
        | .error e => .error e
      | TokenType.var =>
        if token.contents = [] then
          .error (Err.tse (chars "Empty variable tag on line " ++ natChars token.lineno))
        else
          match cf token.contents with
          | .ok fe =>
            match extendNodelist nodelist (Node.variableNode fe) token with
            | .ok nl1 => parseAux cf tags fuel ⟨rest, st.commandStack⟩ parseUntil nl1
            | .error e => .error e
          | .error e => .error e
      | TokenType.block =>
        match splitWs token.contents with
        | [] => .error (Err.tse (chars "Empty block tag on line " ++ natChars token.lineno))
        | command :: _ =>
          if command ∈ parseUntil then .ok (nodelist, st)
          else
            let stack1 := st.commandStack ++ [(command, token)]
            match lookupTag tags command with
            | Option.none => .error (invalidBlockTagErr token command parseUntil)
            | some (TagSpec.leaf mbf) =>
              match extendNodelist nodelist (Node.tag command mbf []) token with
              | .ok nl1 => parseAux cf tags fuel ⟨rest, stack1.dropLast⟩ parseUntil nl1
              | .error e => .error e
            | some (TagSpec.blockTag endTags) =>
              match parseAux cf tags fuel ⟨rest, stack1⟩ endTags emptyNodeList with
              | .ok (children, st2) =>
                match st2.tokens with
                | _ :: rest2 =>
                  match extendNodelist nodelist (Node.tag command false children.nodes) token with
                  | .ok nl1 =>
                    parseAux cf tags fuel ⟨rest2, st2.commandStack.dropLast⟩ parseUntil nl1
                  | .error e => .error e
                | [] => .error Err.indexError
              | .error e => .error e
            | some (TagSpec.failTag msg) => .error (Err.tse msg)
      | TokenType.comment =>
        parseAux cf tags fuel ⟨rest, st.commandStack⟩ parseUntil nodelist

/-- A whole-template `Parser(tokens).parse()` call, with fuel ample for
the token count. -/
def parse (cf : CompileFilter) (tags : TagMap) (tokens : List Token) :
    Except Err (NodeList × PState) :=
  parseAux cf tags (2 * tokens.length + 2) ⟨tokens, []⟩ [] emptyNodeList

end Parser

/-- `Template.compile_nodelist` on the default (non-debug) engine path:
tokenize with the fast lexer and parse. -/
def Template.compile (cf : Parser.CompileFilter) (tags : Parser.TagMap)
    (source : Str) : Except Err (NodeList × Parser.PState) :=
  Parser.parse cf tags (Lexer.tokenize source)

/-- Compile then render: `Template.__init__` followed by
`Template._render(context)` (the `push_state`/`bind_template` scoping only
mutates and restores context attributes around the nodelist render). -/
def Template.render (cf : Parser.CompileFilter) (tags : Parser.TagMap)
    (source : Str) (ctx : Context) : Except Err Str :=
  match Template.compile cf tags source with
  | .ok r => NodeList.render r.1 ctx
  | .error e => .error e

section ResolverClaims

/-- C3: when the `Variable` of a `FilterExpression` fails with
`VariableDoesNotExist` and the caller does not request hard failure
(`ignore_failures=False`), resolution never propagates the exception: a
truthy `string_if_invalid` is returned at once, with a `'%s'` placeholder
interpolated with the variable's expression text; a falsy one is
substituted for the variable's value (and filtered).  The bound template
supplies the engine configuration, as during every render. -/
theorem c3_string_if_invalid
    (fe : FilterExpression) (ctx : Context) (v : Variable) (tr : TemplateRef) (b : Str)
    (hvar : fe.var = VarObj.vVar v)
    (htpl : ctx.template = some tr)
    (hfail : Variable.resolve v ctx = .error (Err.varDNE b)) :
    FilterExpression.resolve fe ctx false =
      (if tr.engine.stringIfInvalid ≠ [] then
        .ok (Val.vStr
          (if hasPercentS tr.engine.stringIfInvalid then
            percentS tr.engine.stringIfInvalid v.var
          else tr.engine.stringIfInvalid))
      else applyFilters fe.filters ctx (Val.vStr tr.engine.stringIfInvalid)) := by
  unfold FilterExpression.resolve
  rw [hvar]
  dsimp only
  rw [hfail]
  dsimp only
  rw [if_neg Bool.false_ne_true, htpl]
  dsimp only
  by_cases hs : tr.engine.stringIfInvalid ≠ []
  · rw [if_pos hs, if_pos hs]
    by_cases hp : hasPercentS tr.engine.stringIfInvalid = true
    · rw [if_pos hp, if_pos hp]
    · rw [if_neg hp, if_neg hp]
  · rw [if_neg hs, if_neg hs]

/-- C3 witness data: a bare variable expression `missing`. -/
def vMissing : Variable := ⟨chars "missing", Option.none, some [chars "missing"], false⟩

/-- C3 witness data: the filter expression wrapping `vMissing`, with no
filters. -/
def feMissing : FilterExpression := ⟨chars "missing", VarObj.vVar vMissing, []⟩

/-- C3 witness data: an engine configured with
`string_if_invalid = "INVALID %s"`. -/
def trInvalid : TemplateRef := ⟨⟨chars "INVALID %s", false⟩⟩

/-- C3 witness data: a context bound to that engine with no user
variables, so the lookup of `missing` fails. -/
def ctxInvalid : Context := ⟨BaseContext.init, true, false, some trInvalid⟩

/-- C3 witness: resolving `missing` against the empty context yields the
interpolated invalid string rather than an error. -/
theorem c3_witness :
    FilterExpression.resolve feMissing ctxInvalid false =
      (if trInvalid.engine.stringIfInvalid ≠ [] then
        .ok (Val.vStr
          (if hasPercentS trInvalid.engine.stringIfInvalid then
            percentS trInvalid.engine.stringIfInvalid vMissing.var
          else trInvalid.engine.stringIfInvalid))
      else applyFilters feMissing.filters ctxInvalid
        (Val.vStr trInvalid.engine.stringIfInvalid)) :=
  c3_string_if_invalid feMissing ctxInvalid vMissing trInvalid (chars "missing")
    rfl rfl rfl

end ResolverClaims

section ParserClaims

/-- Any non-`TextNode` member. -/
def anyNontext (nodes : List Node) : Bool := nodes.any (fun n => !(nodeIsText n))

/-- C7: appending a `must_be_first` node to a `NodeList` that already
contains a non-text node raises the misplaced-tag error; appending to a
list with at most text nodes succeeds; and for every successful append
the `contains_nontext` flag is true exactly when a non-`TextNode` has been
appended (the well-formedness hypothesis states that flag/content
agreement held before, as it does from the empty list up). -/
theorem c7_must_be_first
    (nl : NodeList) (node : Node) (tok : Token)
    (hwf : nl.containsNontext = anyNontext nl.nodes) :
    (nodeMustBeFirst node = true → anyNontext nl.nodes = true →
      Parser.extendNodelist nl node tok
        = .error (Err.tse (nodeRepr node ++ chars " must be the first tag in the template.")))
    ∧ (anyNontext nl.nodes = false →
      Parser.extendNodelist nl node tok
        = .ok ⟨nl.nodes ++ [node], !(nodeIsText node)⟩)
    ∧ (∀ nl', Parser.extendNodelist nl node tok = .ok nl' →
        nl'.containsNontext = anyNontext nl'.nodes) := by
  refine ⟨?_, ?_, ?_⟩
  · intro hmbf hany
    have hcn : nl.containsNontext = true := by rw [hwf, hany]
    unfold Parser.extendNodelist
    rw [hmbf, hcn]
    rfl
  · intro hany
    have hcn : nl.containsNontext = false := by rw [hwf, hany]
    unfold Parser.extendNodelist
    rw [hcn]
    simp
  · intro nl' h
    unfold Parser.extendNodelist at h
    by_cases hc : (nodeMustBeFirst node && nl.containsNontext) = true
    · rw [if_pos hc] at h
      exact Except.noConfusion h
    · rw [if_neg hc] at h
      injection h with h
      subst h
      show (nl.containsNontext || !(nodeIsText node)) = anyNontext (nl.nodes ++ [node])
      rw [hwf]
      simp [anyNontext, List.any_append]

/-- C7 witness data: a list holding one leading text node. -/
def c7Nl : NodeList := ⟨[Node.text (chars "hi")], false⟩

/-- C7 witness data: an `extends`-style `must_be_first` node. -/
def c7Node : Node := Node.tag (chars "extends") true []

/-- C7 witness data: the block token the node came from. -/
def c7Tok : Token := ⟨TokenType.block, chars "extends base", Option.none, 1⟩

/-- C7 witness: a `must_be_first` node placed after only text succeeds and
marks the list as containing non-text. -/
theorem c7_witness :
    Parser.extendNodelist c7Nl c7Node c7Tok
      = .ok ⟨c7Nl.nodes ++ [c7Node], !(nodeIsText c7Node)⟩ :=
  (c7_must_be_first c7Nl c7Node c7Tok rfl).2.1 rfl

/-- C6: if `Parser.parse(parse_until)` reaches the empty token queue
while `parse_until` is nonempty, it raises the unclosed-tag
`TemplateSyntaxError` naming the innermost still-open block command — the
last entry of the command stack, pushed before its compiler was invoked —
and that command's originating line number. -/
theorem c6_unclosed_tag
    (cf : Parser.CompileFilter) (tags : Parser.TagMap) (fuel : Nat)
    (st : Parser.PState) (parseUntil : List Str) (nodelist : NodeList)
    (cs : List (Str × Token)) (command : Str) (tok : Token)
    (htokens : st.tokens = [])
    (hpu : parseUntil ≠ [])
    (hcs : st.commandStack = cs ++ [(command, tok)]) :
    Parser.parseAux cf tags (fuel + 1) st parseUntil nodelist
      = .error (Err.tse (Parser.unclosedMsg tok.lineno command parseUntil)) := by
  obtain ⟨tokens, stack⟩ := st
  simp only at htokens hcs
  subst htokens hcs
  unfold Parser.parseAux
  dsimp only
  rw [if_neg hpu]
  unfold Parser.unclosedBlockTag
  rw [getLast?_append_single]

/-- C6 witness data: the block token of an unterminated `{% if x %}`. -/
def tokIf : Token := ⟨TokenType.block, chars "if x", Option.none, 1⟩

/-- C6 witness data: a compile-filter stub (no variable token occurs). -/
def cfStub : Parser.CompileFilter := fun _ => .error Err.typeError

/-- C6 witness: the recursive body parse of `{% if x %}` — command stack
holding `('if', token)` — exhausts the queue while looking for `endif`
and raises the unclosed-tag error naming `if` and line 1. -/
theorem c6_witness :
    Parser.parseAux cfStub [] 1 ⟨[], [(chars "if", tokIf)]⟩ [chars "endif"] emptyNodeList
      = .error (Err.tse (Parser.unclosedMsg tokIf.lineno (chars "if") [chars "endif"])) :=
  c6_unclosed_tag cfStub [] 0 ⟨[], [(chars "if", tokIf)]⟩ [chars "endif"] emptyNodeList
    [] (chars "if") tokIf rfl (List.cons_ne_nil _ _) rfl

end ParserClaims

section TextIdentityClaim

/-- No opening tag delimiter (`{%`, two braces, `{#`) occurs. -/
def openerFree (s : Str) : Bool :=
  !(hasPair '{' '%' s || hasPair '{' '{' s || hasPair '{' '#' s)

/-- None of the six tag-delimiter digraphs occurs. -/
def noTagDelims (s : Str) : Bool :=
  !(hasPair '{' '%' s || hasPair '%' '}' s || hasPair '{' '{' s
    || hasPair '}' '}' s || hasPair '{' '#' s || hasPair '#' '}' s)

/-- Helper: a head pair absent from a pair-free string, and the tail is
pair-free too. -/
theorem hasPair_cons_false (a b x y : Char) (t : Str)
    (h : hasPair a b (x :: y :: t) = false) :
    ((x = a ∧ y = b) → False) ∧ hasPair a b (y :: t) = false := by
  rw [hasPair] at h
  constructor
  · rintro ⟨rfl, rfl⟩
    simp at h
  · exact (Bool.or_eq_false_iff.mp h).2

/-- Helper: a source without opening delimiters yields no tag match — the
scan returns everything as one text remainder. -/
theorem tagScanAux_openerFree :
    ∀ (l accRev : Str), openerFree l = true →
      tagScanAux accRev l = ([], accRev.reverse ++ l)
  | [], _, _ => by simp [tagScanAux]
  | [c], _, _ => by simp [tagScanAux]
  | c0 :: c1 :: t, accRev, h => by
    have hcomp : ((hasPair '{' '%' (c0 :: c1 :: t) || hasPair '{' '{' (c0 :: c1 :: t))
        || hasPair '{' '#' (c0 :: c1 :: t)) = false := by
      have h' := h
      unfold openerFree at h'
      rwa [Bool.not_eq_true'] at h'
    have ha := Bool.or_eq_false_iff.mp hcomp
    have hb := Bool.or_eq_false_iff.mp ha.1
    have hA := hasPair_cons_false '{' '%' c0 c1 t hb.1
    have hB := hasPair_cons_false '{' '{' c0 c1 t hb.2
    have hC := hasPair_cons_false '{' '#' c0 c1 t ha.2
    have hrec : openerFree (c1 :: t) = true := by
      unfold openerFree
      rw [hA.2, hB.2, hC.2]
      rfl
    have hop : (if c0 = '{' then closerOf c1 else Option.none) = Option.none := by
      by_cases h0 : c0 = '{'
      · rw [if_pos h0]
        have e1 : ¬(c1 = '%') := fun hcon => hA.1 ⟨h0, hcon⟩
        have e2 : ¬(c1 = '{') := fun hcon => hB.1 ⟨h0, hcon⟩
        have e3 : ¬(c1 = '#') := fun hcon => hC.1 ⟨h0, hcon⟩
        unfold closerOf
        rw [if_neg e1, if_neg e2, if_neg e3]
      · rw [if_neg h0]
    simp only [tagScanAux]
    rw [hop]
    dsimp only
    rw [tagScanAux_openerFree (c1 :: t) (c0 :: accRev) hrec]
    simp

/-- Helper: `create_token` outside a tag yields a `TEXT` token and leaves
the verbatim state alone. -/
theorem createTokenCore_text (v : Option Str) (ts : Str) :
    createTokenCore v ts false = (TokenType.text, ts, v) := rfl

/-- Helper: parsing the single text token appends one `TextNode` and
returns. -/
theorem parse_single_text (cf : Parser.CompileFilter) (tags : Parser.TagMap)
    (s : Str) (p : Option (Nat × Nat)) (ln : Nat) :
    Parser.parse cf tags [⟨TokenType.text, s, p, ln⟩]
      = .ok (⟨[Node.text s], false⟩, ⟨[], []⟩) := rfl

/-- C4: a source string containing no tag delimiters compiles to a
template that renders, against any context, to exactly the original
source string. -/
theorem c4_text_identity (cf : Parser.CompileFilter) (tags : Parser.TagMap)
    (source : Str) (ctx : Context)
    (h : noTagDelims source = true) :
    Template.render cf tags source ctx = .ok source := by
  have hop : openerFree source = true := by
    unfold noTagDelims at h
    rw [Bool.not_eq_true'] at h
    have a1 := Bool.or_eq_false_iff.mp h
    have a2 := Bool.or_eq_false_iff.mp a1.1
    have a3 := Bool.or_eq_false_iff.mp a2.1
    have a4 := Bool.or_eq_false_iff.mp a3.1
    have a5 := Bool.or_eq_false_iff.mp a4.1
    unfold openerFree
    rw [a5.1, a4.2, a2.2]
    rfl
  have hscan : tagScan source = ([], source) := by
    unfold tagScan
    rw [tagScanAux_openerFree source [] hop]
    rfl
  cases source with
  | nil =>
    have htok : Lexer.tokenize [] = [] := by
      simp only [Lexer.tokenize]
      rw [hscan]
      rfl
    unfold Template.render Template.compile
    rw [htok]
    rfl
  | cons c rest =>
    have htok : Lexer.tokenize (c :: rest)
        = [⟨TokenType.text, c :: rest, Option.none, 1⟩] := by
      simp only [Lexer.tokenize]
      rw [hscan]
      simp [Lexer.tokenizeAux, createToken, createTokenCore_text]
    unfold Template.render Template.compile
    rw [htok, parse_single_text cf tags (c :: rest) Option.none 1]
    simp [NodeList.render, renderNodes, nodeRender]

/-- C4 witness context: a plain context with no bound template. -/
def ctxPlain : Context := ⟨BaseContext.init, true, false, Option.none⟩

/-- C4 witness: a delimiter-free source renders to itself. -/
theorem c4_witness :
    Template.render cfStub [] (chars "Hello, world!") ctxPlain
      = .ok (chars "Hello, world!") :=
  c4_text_identity cfStub [] (chars "Hello, world!") ctxPlain rfl

end TextIdentityClaim

end DjangoTemplate
